import Mathlib

/-!
Shallow embedding of the GT911 userspace touchscreen driver (driver.py).

The driver polls a GT911 touch controller over I2C, decodes its status
byte, queries per-contact coordinates (applying scaling, axis flips, and
an optional X/Y swap), diffs the set of active hardware track IDs against
the previous polling cycle, and emits multi-touch events to a virtual
input device.

Hardware bus transactions are modelled by an oracle: a function from a
register address (a list of bytes, high byte first, exactly as the source
passes them) to either a byte value or a transport error.  Writes are
likewise fallible.  The write operations performed by the driver are
collected in a trace so that the buffer-clear handshake can be observed.
-/

namespace GT911

/-- Errors the embedded driver can raise: a failed bus transaction
(smbus2 raising OSError in the source), or a failed Python assert
(the pointID range check in queryPoint). -/
inductive DriverError
  | transport
  | assertionFailed
deriving DecidableEq

/-- Hardware bus model: reads return one byte per register address,
writes take a register address and a payload.  Both may fail. -/
structure Oracle where
  read : List Nat → Except DriverError Nat
  write : List Nat → List Nat → Except DriverError Unit

/-- A write transaction performed on the bus: register address and payload. -/
abbrev WriteOp := List Nat × List Nat

/-- Configuration surface of the driver (constructor arguments of GT911). -/
structure Config where
  scalingFactor : Nat
  flipX : Bool
  flipY : Bool
  swapXY : Bool
deriving DecidableEq

/-- One detected contact, as stored in the touchInfo dict of the source:
transformed x and y coordinates, raw size, and the hardware track ID.
Coordinates are integers because an axis flip subtracts the coordinate
from the resolution and can in principle go negative. -/
structure Contact where
  x : Int
  y : Int
  size : Nat
  track : Nat
deriving DecidableEq

/-- A TouchState is the Python dict mapping track ID to contact, modelled
as an insertion-ordered association list with (invariantly) unique keys. -/
abbrev TouchState := List (Nat × Contact)

/-- The mutable state the polling loop owns: the current and the previous
TouchState (self.touchInfo and self.previousTouchInfo). -/
structure DriverState where
  touchInfo : TouchState
  previousTouchInfo : TouchState
deriving DecidableEq

/-- Both dicts start empty in the constructor. -/
def initialState : DriverState := ⟨[], []⟩

/-- Key list of a TouchState (dict.keys(), in insertion order). -/
def dictKeys (m : TouchState) : List Nat := m.map Prod.fst

/-- Dict lookup. -/
def dictLookup (m : TouchState) (k : Nat) : Option Contact :=
  match m with
  | [] => none
  | (k', v) :: rest => if k' = k then some v else dictLookup rest k

/-- Dict access for a key known to be present (Python m[k]); a present key
is always resolved to its unique entry, the default is never reached at
the call sites, which only access keys of the dict. -/
def dictGet (m : TouchState) (k : Nat) : Contact :=
  (dictLookup m k).getD ⟨0, 0, 0, 0⟩

/-- Python dict assignment m[k] = v: replaces the value in place if the
key exists (keeping its position), otherwise appends the new entry. -/
def insertKV (m : TouchState) (k : Nat) (v : Contact) : TouchState :=
  if (dictKeys m).contains k then
    m.map (fun kv => if kv.1 = k then (k, v) else kv)
  else
    m ++ [(k, v)]

/-- The stale-track removal in the read loop: delete every key that is
not among the tracks read this round (del of each key in toDel). -/
def removeMissing (m : TouchState) (tracksThisRound : List Nat) : TouchState :=
  m.filter (fun kv => tracksThisRound.contains kv.1)

/-- Decoded status byte (lines 333-337 of the source). -/
structure StatusFlags where
  bufferStatus : Bool
  largeDetect : Bool
  proximityValid : Bool
  haveKey : Bool
  touchPoints : Nat
deriving DecidableEq

/-- Status byte decoding: single-bit masks for the four flags, low 4 bits
for the contact count, exactly as the source masks them. -/
def decodeStatus (statusByte : Nat) : StatusFlags where
  bufferStatus := statusByte &&& 0b10000000 != 0
  largeDetect := statusByte &&& 0b01000000 != 0
  proximityValid := statusByte &&& 0b00100000 != 0
  haveKey := statusByte &&& 0b00010000 != 0
  touchPoints := statusByte &&& 0b00001111

/-- The little-endian combination loop of readI2CMultiByteValue:
combinedValue |= value << (8 * i) over the enumerated byte list. -/
def combine (readValues : List Nat) : Nat :=
  readValues.enum.foldl (fun combinedValue iv => combinedValue ||| (iv.2 <<< (8 * iv.1))) 0

/-- Read one byte from each of the given registers, in order
(the read loop of readI2CMultiByteValue). -/
def readVals (o : Oracle) : List (List Nat) → Except DriverError (List Nat)
  | [] => .ok []
  | r :: rs =>
    match o.read r with
    | .error e => .error e
    | .ok v =>
      match readVals o rs with
      | .error e => .error e
      | .ok vs => .ok (v :: vs)

/-- readI2CMultiByteValue with combine=True (the only way the driver
calls it): read one byte per register, then combine little-endian. -/
def readI2CMultiByteValue (o : Oracle) (registers : List (List Nat)) : Except DriverError Nat :=
  match readVals o registers with
  | .error e => .error e
  | .ok vs => .ok (combine vs)

/-- Register addresses of one touch-point slot from the hardcoded
tpRegisterID table. -/
structure PointRegs where
  track : List Nat
  x : List (List Nat)
  y : List (List Nat)
  size : List (List Nat)
deriving DecidableEq

/-- The hardcoded per-slot register table (source lines 56-87). -/
def tpRegisterID : Fin 5 → PointRegs
  | ⟨0, _⟩ => ⟨[0x81, 0x4F], [[0x81, 0x50], [0x81, 0x51]], [[0x81, 0x52], [0x81, 0x53]], [[0x81, 0x54], [0x81, 0x55]]⟩
  | ⟨1, _⟩ => ⟨[0x81, 0x57], [[0x81, 0x58], [0x81, 0x59]], [[0x81, 0x5A], [0x81, 0x5B]], [[0x81, 0x5C], [0x81, 0x5D]]⟩
  | ⟨2, _⟩ => ⟨[0x81, 0x5F], [[0x81, 0x60], [0x81, 0x61]], [[0x81, 0x62], [0x81, 0x63]], [[0x81, 0x64], [0x81, 0x65]]⟩
  | ⟨3, _⟩ => ⟨[0x81, 0x67], [[0x81, 0x68], [0x81, 0x69]], [[0x81, 0x6A], [0x81, 0x6B]], [[0x81, 0x6C], [0x81, 0x6D]]⟩
  | ⟨4, _⟩ => ⟨[0x81, 0x6F], [[0x81, 0x70], [0x81, 0x71]], [[0x81, 0x72], [0x81, 0x73]], [[0x81, 0x74], [0x81, 0x75]]⟩

/-- queryCoordinateResolution: read the two 16-bit resolution fields,
scale each, and swap the pair if swapXY is configured.  The swapped
result is what the driver stores as self.coordinateResolution. -/
def queryCoordinateResolution (o : Oracle) (cfg : Config) : Except DriverError (Nat × Nat) :=
  match readI2CMultiByteValue o [[0x81, 0x46], [0x81, 0x47]] with
  | .error e => .error e
  | .ok xr =>
    match readI2CMultiByteValue o [[0x81, 0x48], [0x81, 0x49]] with
    | .error e => .error e
    | .ok yr =>
      let xRes := xr * cfg.scalingFactor
      let yRes := yr * cfg.scalingFactor
      .ok (if cfg.swapXY then (yRes, xRes) else (xRes, yRes))

/-- The coordinate pipeline of queryPoint (lines 239-248): scale the raw
reads, flip each axis against the stored coordinateResolution component,
then swap the pair if configured. -/
def transform (cfg : Config) (coordinateResolution : Nat × Nat) (xRead yRead : Nat) : Int × Int :=
  let xCoordinate : Int := (xRead : Int) * (cfg.scalingFactor : Int)
  let yCoordinate : Int := (yRead : Int) * (cfg.scalingFactor : Int)
  let xFlipped : Int := if cfg.flipX then (coordinateResolution.1 : Int) - xCoordinate else xCoordinate
  let yFlipped : Int := if cfg.flipY then (coordinateResolution.2 : Int) - yCoordinate else yCoordinate
  if cfg.swapXY then (yFlipped, xFlipped) else (xFlipped, yFlipped)

/-- The transform as the specification words it: each enabled flip
reflects the raw coordinate about the resolution of the axis the hardware
natively reports (raw x about the native X resolution, raw y about the
native Y resolution), independent of swapXY; the swap happens afterwards.
This definition follows the claim text and exists to be compared with
transform, which is translated from the source. -/
def specTransform (cfg : Config) (nativeRes : Nat × Nat) (xRead yRead : Nat) : Int × Int :=
  let xCoordinate : Int := (xRead : Int) * (cfg.scalingFactor : Int)
  let yCoordinate : Int := (yRead : Int) * (cfg.scalingFactor : Int)
  let xFlipped : Int :=
    if cfg.flipX then ((nativeRes.1 * cfg.scalingFactor : Nat) : Int) - xCoordinate else xCoordinate
  let yFlipped : Int :=
    if cfg.flipY then ((nativeRes.2 * cfg.scalingFactor : Nat) : Int) - yCoordinate else yCoordinate
  if cfg.swapXY then (yFlipped, xFlipped) else (xFlipped, yFlipped)

/-- queryPoint: assert the slot index is in 0..4, read x and y (two bytes
each, little-endian), scale and transform them, read the size and the
one-byte track ID, and return the tuple. -/
def queryPoint (o : Oracle) (cfg : Config) (coordinateResolution : Nat × Nat) (pointID : Nat) :
    Except DriverError (Int × Int × Nat × Nat) :=
  if h : pointID ≤ 4 then
    let regs := tpRegisterID ⟨pointID, Nat.lt_succ_of_le h⟩
    match readI2CMultiByteValue o regs.x with
    | .error e => .error e
    | .ok xRead =>
      match readI2CMultiByteValue o regs.y with
      | .error e => .error e
      | .ok yRead =>
        let xy := transform cfg coordinateResolution xRead yRead
        match readI2CMultiByteValue o regs.size with
        | .error e => .error e
        | .ok size =>
          match o.read regs.track with
          | .error e => .error e
          | .ok track => .ok (xy.1, xy.2, size, track)
  else .error .assertionFailed

/-- Codes of the EV_ABS axes the driver writes, mirroring the evdev
ecodes constants it uses. -/
inductive AbsCode
  | mtSlot
  | mtTouchMajor
  | mtPositionX
  | mtPositionY
  | mtTrackingId
  | absX
  | absY
deriving DecidableEq, BEq

/-- One virtual-input event: an EV_ABS field write, or a synchronization
point (ui.syn()). -/
inductive Event
  | absWrite (code : AbsCode) (value : Int)
  | syn
deriving DecidableEq

/-- AbsInfo capability tuple as declared for the virtual device. -/
structure AbsInfo where
  value : Int
  min : Int
  max : Int
  fuzz : Int
  flat : Int
  resolution : Int
deriving DecidableEq

/-- The EV_ABS capabilities of the virtual touchscreen (source lines
94-105): slot range 0..9, touch-major 0..255, positions sized by the
stored coordinate resolution, tracking ID 0..65535.  The EV_KEY
capabilities (BTN_TOUCH, BTN_TOOL_FINGER) carry no ranges and are not
needed here. -/
def caps (coordinateResolution : Nat × Nat) : List (AbsCode × AbsInfo) :=
  [ (AbsCode.mtSlot, ⟨0, 0, 9, 0, 0, 0⟩),
    (AbsCode.mtTouchMajor, ⟨0, 0, 255, 0, 0, 0⟩),
    (AbsCode.mtPositionX, ⟨0, 0, (coordinateResolution.1 : Int), 0, 0, 0⟩),
    (AbsCode.mtPositionY, ⟨0, 0, (coordinateResolution.2 : Int), 0, 0, 0⟩),
    (AbsCode.mtTrackingId, ⟨0, 0, 65535, 0, 0, 0⟩),
    (AbsCode.absX, ⟨0, 0, (coordinateResolution.1 : Int), 0, 0, 0⟩),
    (AbsCode.absY, ⟨0, 0, (coordinateResolution.2 : Int), 0, 0, 0⟩) ]

/-- The declared maximum of the ABS_MT_SLOT axis in the capability table. -/
def slotAbsMax (coordinateResolution : Nat × Nat) : Int :=
  ((((caps coordinateResolution).lookup AbsCode.mtSlot).map AbsInfo.max)).getD 0

/-- Events fired for a new track (newTrack handler): slot select,
tracking-id assign, both positions, contact size. -/
def newTrack (trackID : Nat) (info : Contact) : List Event :=
  [ .absWrite .mtSlot (trackID : Int),
    .absWrite .mtTrackingId (trackID : Int),
    .absWrite .mtPositionX info.x,
    .absWrite .mtPositionY info.y,
    .absWrite .mtTouchMajor (info.size : Int) ]

/-- Events fired for an updated track (updateTrack handler): slot select,
both positions, contact size; no tracking-id reassignment. -/
def updateTrack (trackID : Nat) (info : Contact) : List Event :=
  [ .absWrite .mtSlot (trackID : Int),
    .absWrite .mtPositionX info.x,
    .absWrite .mtPositionY info.y,
    .absWrite .mtTouchMajor (info.size : Int) ]

/-- Events fired for an ended track (endTrack handler): slot select and
tracking-id -1 (the no-contact sentinel). -/
def endTrack (trackID : Nat) : List Event :=
  [ .absWrite .mtSlot (trackID : Int),
    .absWrite .mtTrackingId (-1) ]

/-- Classification of one track by the per-cycle diff. -/
inductive TrackTransition
  | started (trackID : Nat) (info : Contact)
  | updated (trackID : Nat) (info : Contact)
  | ended (trackID : Nat)
deriving DecidableEq

/-- The track ID a transition is about. -/
def transitionTrackID : TrackTransition → Nat
  | .started t _ => t
  | .updated t _ => t
  | .ended t => t

/-- Events emitted for one classified track. -/
def transitionEvents : TrackTransition → List Event
  | .started t info => newTrack t info
  | .updated t info => updateTrack t info
  | .ended t => endTrack t

/-- Track IDs in current but not in previous (set(cur) - set(prev) in
eventCallback), enumerated in current key order. -/
def newTracks (cur prev : TouchState) : List Nat :=
  (dictKeys cur).filter (fun k => decide (k ∉ dictKeys prev))

/-- Track IDs in both current and previous (set intersection in
eventCallback). -/
def commonTracks (cur prev : TouchState) : List Nat :=
  (dictKeys cur).filter (fun k => decide (k ∈ dictKeys prev))

/-- Track IDs in previous but not in current (set(prev) - set(cur) in
eventCallback). -/
def endedTracks (cur prev : TouchState) : List Nat :=
  (dictKeys prev).filter (fun k => decide (k ∉ dictKeys cur))

/-- New-track transitions of one diff pass. -/
def startedTransitions (cur prev : TouchState) : List TrackTransition :=
  (newTracks cur prev).map (fun t => .started t (dictGet cur t))

/-- Updated-track transitions of one diff pass; every common track is
classified Updated, the source's change check is commented out. -/
def updatedTransitions (cur prev : TouchState) : List TrackTransition :=
  (commonTracks cur prev).map (fun t => .updated t (dictGet cur t))

/-- Ended-track transitions of one diff pass. -/
def endedTransitions (cur prev : TouchState) : List TrackTransition :=
  (endedTracks cur prev).map .ended

/-- All transitions of one diff pass, in emission order of eventCallback. -/
def transitions (cur prev : TouchState) : List TrackTransition :=
  startedTransitions cur prev ++ updatedTransitions cur prev ++ endedTransitions cur prev

/-- Events of one classification group followed by one syn() if the group
is non-empty, matching the per-group batching of eventCallback. -/
def groupEvents (ts : List TrackTransition) : List Event :=
  ts.flatMap transitionEvents ++ if ts.isEmpty then [] else [Event.syn]

/-- The whole event trace of one eventCallback call: new group, updated
group, ended group, each with its own syn. -/
def eventTrace (cur prev : TouchState) : List Event :=
  groupEvents (startedTransitions cur prev) ++ groupEvents (updatedTransitions cur prev) ++
    groupEvents (endedTransitions cur prev)

/-- Observable steps of eventCallback: the emitted events, then the
wholesale replacement of the previous state by the current one. -/
inductive Action
  | emit (ev : Event)
  | setPrevious (s : TouchState)
deriving DecidableEq

/-- eventCallback as an ordered action list: all transition events first,
then previousTouchInfo = touchInfo.copy() as the final step. -/
def eventCallbackActions (cur prev : TouchState) : List Action :=
  (eventTrace cur prev).map Action.emit ++ [Action.setPrevious cur]

/-- The contact-query loop of the read loop (for i in range(touchPoints)):
query each point, store it in touchInfo keyed by its hardware track ID,
and append the track to tracksThisRound.  The third component records the
touchInfo dict as it stands after each insertion, exposing the
intermediate states of the loop. -/
def queryLoop (o : Oracle) (cfg : Config) (coordinateResolution : Nat × Nat) :
    List Nat → TouchState → List Nat → List TouchState →
    Except DriverError (TouchState × List Nat × List TouchState)
  | [], touchInfo, tracksThisRound, states => .ok (touchInfo, tracksThisRound, states)
  | i :: rest, touchInfo, tracksThisRound, states =>
    match queryPoint o cfg coordinateResolution i with
    | .error e => .error e
    | .ok (x, y, size, track) =>
      let touchInfo := insertKV touchInfo track ⟨x, y, size, track⟩
      queryLoop o cfg coordinateResolution rest touchInfo (tracksThisRound ++ [track])
        (states ++ [touchInfo])

/-- The buffer-clear write: value zero to the status register. -/
def clearWrite : WriteOp := ([0x81, 0x4E], [0])

/-- One iteration of the read loop: read and decode the status byte; if
the buffer is ready, either query touchPoints contacts (removing stale
tracks afterwards) or reset touchInfo to empty when the count is zero,
run the event callback, and clear the buffer.  The second component is
the trace of bus writes the iteration performed. -/
def readCycle (o : Oracle) (cfg : Config) (coordinateResolution : Nat × Nat) (st : DriverState) :
    Except DriverError (DriverState × List Action) × List WriteOp :=
  match o.read [0x81, 0x4E] with
  | .error e => (.error e, [])
  | .ok statusByte =>
    let flags := decodeStatus statusByte
    if flags.bufferStatus then
      if 1 ≤ flags.touchPoints then
        match queryLoop o cfg coordinateResolution (List.range flags.touchPoints) st.touchInfo [] [] with
        | .error e => (.error e, [])
        | .ok (m1, tracksThisRound, _) =>
          let m2 := removeMissing m1 tracksThisRound
          let acts := eventCallbackActions m2 st.previousTouchInfo
          match o.write [0x81, 0x4E] [0] with
          | .error e => (.error e, [clearWrite])
          | .ok _ => (.ok (⟨m2, m2⟩, acts), [clearWrite])
      else
        let acts := eventCallbackActions [] st.previousTouchInfo
        match o.write [0x81, 0x4E] [0] with
        | .error e => (.error e, [clearWrite])
        | .ok _ => (.ok (⟨[], []⟩, acts), [clearWrite])
    else (.ok (st, []), [])

/-- The polling loop over a finite schedule of per-cycle oracles: run one
cycle per oracle; an error anywhere propagates out of the loop (the
source has no exception handler around the loop body), accumulating the
write trace of the cycles that ran. -/
def runLoop (cfg : Config) (coordinateResolution : Nat × Nat) :
    List Oracle → DriverState → Except DriverError DriverState × List WriteOp
  | [], st => (.ok st, [])
  | o :: rest, st =>
    match readCycle o cfg coordinateResolution st with
    | (.ok (st', _), w1) =>
      match runLoop cfg coordinateResolution rest st' with
      | (r, w2) => (r, w1 ++ w2)
    | (.error e, w1) => (.error e, w1)

/-- The loop as the claim describes it: a cycle that fails with a bus
error is abandoned and a fresh cycle begins after the poll delay, the
loop carrying the old state past the failed cycle.  This definition
follows the claim text and exists to be compared with runLoop, which is
translated from the source. -/
def specRunLoopContinue (cfg : Config) (coordinateResolution : Nat × Nat) :
    List Oracle → DriverState → Except DriverError DriverState × List WriteOp
  | [], st => (.ok st, [])
  | o :: rest, st =>
    match readCycle o cfg coordinateResolution st with
    | (.ok (st', _), w1) =>
      match specRunLoopContinue cfg coordinateResolution rest st' with
      | (r, w2) => (r, w1 ++ w2)
    | (.error _, w1) =>
      match specRunLoopContinue cfg coordinateResolution rest st with
      | (r, w2) => (r, w1 ++ w2)

/-- Whether an observable step is an event emission (as opposed to the
previous-state replacement). -/
def isEmitAction : Action → Bool
  | .emit _ => true
  | .setPrevious _ => false

/-- The driver state a cycle result carries when the cycle succeeded,
defaulting to the initial state otherwise. -/
def cycleResultState (r : Except DriverError (DriverState × List Action) × List WriteOp) :
    DriverState :=
  match r with
  | (.ok (st, _), _) => st
  | (.error _, _) => initialState

/-- An oracle whose reads always succeed with the value of a pure
function and whose writes always succeed. -/
def pureOracle (f : List Nat → Nat) : Oracle :=
  ⟨fun r => .ok (f r), fun _ _ => .ok ()⟩

/-- The little-endian value of a byte list as the specification words it:
the first byte is the least-significant 8 bits, each subsequent byte is
shifted 8 bits higher.  This definition follows the spec text and exists
to be compared with combine, which is translated from the source. -/
def specLittleEndian : List Nat → Nat
  | [] => 0
  | v :: vs => v + 256 * specLittleEndian vs

/-! ### Helper lemmas -/

theorem lor_shiftLeft_of_lt {acc k : Nat} (h : acc < 2 ^ k) (v : Nat) :
    acc ||| (v <<< k) = acc + v * 2 ^ k := by
  rw [Nat.shiftLeft_eq, Nat.or_comm, show v * 2 ^ k = 2 ^ k * v from Nat.mul_comm v _,
    ← Nat.mul_add_lt_is_or h v, Nat.add_comm]

theorem foldl_combine_enumFrom (vals : List Nat) :
    ∀ (i acc : Nat), (∀ v ∈ vals, v < 256) → acc < 2 ^ (8 * i) →
      (vals.enumFrom i).foldl (fun combinedValue iv => combinedValue ||| (iv.2 <<< (8 * iv.1))) acc =
        acc + 2 ^ (8 * i) * specLittleEndian vals := by
  induction vals with
  | nil => intro i acc _ _; simp [specLittleEndian]
  | cons v vs ih =>
    intro i acc hv hacc
    have hv256 : v < 256 := hv v (by simp)
    have hstep : acc ||| (v <<< (8 * i)) = acc + v * 2 ^ (8 * i) := lor_shiftLeft_of_lt hacc v
    have hpow : 2 ^ (8 * (i + 1)) = 2 ^ (8 * i) * 256 := by
      rw [show 8 * (i + 1) = 8 * i + 8 from by ring, pow_add]; norm_num
    have hlt : acc + v * 2 ^ (8 * i) < 2 ^ (8 * (i + 1)) := by
      rw [hpow]; nlinarith [Nat.two_pow_pos (8 * i)]
    have hrec := ih (i + 1) (acc + v * 2 ^ (8 * i)) (fun w hw => hv w (by simp [hw])) hlt
    rw [List.enumFrom_cons, List.foldl_cons, hstep, hrec, hpow, specLittleEndian]
    ring

theorem combine_eq_specLittleEndian (vals : List Nat) (h : ∀ v ∈ vals, v < 256) :
    combine vals = specLittleEndian vals := by
  have := foldl_combine_enumFrom vals 0 0 h (by simp)
  simpa [combine, List.enum_eq_enumFrom] using this

theorem readVals_pureOracle (f : List Nat → Nat) (registers : List (List Nat)) :
    readVals (pureOracle f) registers = .ok (registers.map f) := by
  induction registers with
  | nil => rfl
  | cons r rs ih =>
    have hstep : readVals (pureOracle f) (r :: rs) =
        match readVals (pureOracle f) rs with
        | .error e => .error e
        | .ok vs => .ok (f r :: vs) := rfl
    rw [hstep, ih]
    rfl

theorem bufferStatus_eq_testBit (b : Nat) : (decodeStatus b).bufferStatus = b.testBit 7 := by
  show (b &&& 0b10000000 != 0) = b.testBit 7
  rw [show (0b10000000 : Nat) = 2 ^ 7 from by norm_num, Nat.and_two_pow]
  cases hb : b.testBit 7 <;> simp [hb]

theorem dictKeys_insertKV (m : TouchState) (k : Nat) (v : Contact) :
    dictKeys (insertKV m k v) =
      if (dictKeys m).contains k then dictKeys m else dictKeys m ++ [k] := by
  unfold insertKV
  split
  · simp only [dictKeys, List.map_map]
    apply List.map_congr_left
    intro kv _
    by_cases hk : kv.1 = k <;> simp [hk]
  · simp [dictKeys]

theorem nodup_dictKeys_insertKV {m : TouchState} (hm : (dictKeys m).Nodup) (k : Nat) (v : Contact) :
    (dictKeys (insertKV m k v)).Nodup := by
  rw [dictKeys_insertKV]
  split
  · exact hm
  · next hcon =>
    have : k ∉ dictKeys m := by
      intro hmem
      exact hcon (by simpa [List.contains, List.elem_eq_mem] using hmem)
    simp [List.nodup_append, hm, this]

theorem dictKeys_removeMissing (m : TouchState) (tracks : List Nat) :
    dictKeys (removeMissing m tracks) = (dictKeys m).filter (fun k => tracks.contains k) := by
  induction m with
  | nil => rfl
  | cons kv rest ih =>
    by_cases hk : kv.1 ∈ tracks
    · simp only [removeMissing, dictKeys, List.filter_cons] at ih ⊢
      simp [hk, List.contains, List.elem_eq_mem] at ih ⊢
      exact ih
    · simp only [removeMissing, dictKeys, List.filter_cons] at ih ⊢
      simp [hk, List.contains, List.elem_eq_mem] at ih ⊢
      exact ih

theorem removeMissing_length_le {m : TouchState} (hm : (dictKeys m).Nodup)
    (tracks : List Nat) : (removeMissing m tracks).length ≤ tracks.length := by
  have hlen : (removeMissing m tracks).length = (dictKeys (removeMissing m tracks)).length := by
    simp [dictKeys]
  have hnd : (dictKeys (removeMissing m tracks)).Nodup := by
    rw [dictKeys_removeMissing]; exact hm.filter _
  have hsub : dictKeys (removeMissing m tracks) ⊆ tracks := by
    intro a ha
    rw [dictKeys_removeMissing, List.mem_filter] at ha
    simpa [List.contains, List.elem_eq_mem] using ha.2
  calc (removeMissing m tracks).length
      = (dictKeys (removeMissing m tracks)).toFinset.card := by
        rw [hlen, List.toFinset_card_of_nodup hnd]
    _ ≤ tracks.toFinset.card := by
        apply Finset.card_le_card
        intro a ha
        rw [List.mem_toFinset] at *
        exact hsub (by simpa using ha)
    _ ≤ tracks.length := List.toFinset_card_le tracks

/-! ### Claim theorems -/

/-- C1: for every pair of TouchStates (previous, current), the track diff
partitions the track IDs: newTracks united with commonTracks equals the
key set of current, commonTracks united with endedTracks equals the key
set of previous, and the three sets are pairwise disjoint. -/
theorem c1_diff_partitions_track_ids (cur prev : TouchState) :
    (newTracks cur prev).toFinset ∪ (commonTracks cur prev).toFinset = (dictKeys cur).toFinset ∧
    (commonTracks cur prev).toFinset ∪ (endedTracks cur prev).toFinset = (dictKeys prev).toFinset ∧
    Disjoint (newTracks cur prev).toFinset (commonTracks cur prev).toFinset ∧
    Disjoint (newTracks cur prev).toFinset (endedTracks cur prev).toFinset ∧
    Disjoint (commonTracks cur prev).toFinset (endedTracks cur prev).toFinset := by
  refine ⟨?_, ?_, ?_, ?_, ?_⟩
  · ext a
    simp only [Finset.mem_union, List.mem_toFinset, newTracks, commonTracks, List.mem_filter,
      decide_eq_true_eq]
    tauto
  · ext a
    simp only [Finset.mem_union, List.mem_toFinset, commonTracks, endedTracks, List.mem_filter,
      decide_eq_true_eq]
    tauto
  · rw [Finset.disjoint_left]
    intro a ha hb
    simp only [List.mem_toFinset, newTracks, commonTracks, List.mem_filter,
      decide_eq_true_eq] at ha hb
    exact ha.2 hb.2
  · rw [Finset.disjoint_left]
    intro a ha hb
    simp only [List.mem_toFinset, newTracks, endedTracks, List.mem_filter,
      decide_eq_true_eq] at ha hb
    exact hb.2 ha.1
  · rw [Finset.disjoint_left]
    intro a ha hb
    simp only [List.mem_toFinset, commonTracks, endedTracks, List.mem_filter,
      decide_eq_true_eq] at ha hb
    exact hb.2 ha.1

/-- C7: the multi-byte read reads one byte per register in the order
given and combines them little-endian: the first byte is the
least-significant 8 bits and each subsequent byte is shifted 8 bits
higher (specLittleEndian); in particular raw bytes 0x34 and 0x12 read
from two registers combine to 0x1234. -/
theorem c7_multi_byte_read_little_endian :
    (∀ (f : List Nat → Nat) (registers : List (List Nat)),
      readI2CMultiByteValue (pureOracle f) registers = .ok (combine (registers.map f))) ∧
    (∀ readValues : List Nat, (∀ v ∈ readValues, v < 256) →
      combine readValues = specLittleEndian readValues) ∧
    readI2CMultiByteValue (pureOracle fun r => if r = [0x00] then 0x34 else if r = [0x01] then 0x12 else 0)
      [[0x00], [0x01]] = .ok 0x1234 := by
  refine ⟨?_, ?_, ?_⟩
  · intro f registers
    unfold readI2CMultiByteValue
    rw [readVals_pureOracle]
  · exact combine_eq_specLittleEndian
  · rfl

set_option maxRecDepth 4096 in
/-- C8: every status byte value decodes with bufferStatus from bit 7,
largeDetect from bit 6, proximityValid from bit 5, haveKey from bit 4,
and touchPoints from the low 4 bits; in particular 0b10000011 decodes to
buffer ready with 3 contacts and all other flags clear. -/
theorem c8_status_byte_decoding :
    (∀ statusByte : Nat, statusByte < 256 →
      decodeStatus statusByte =
        ⟨statusByte.testBit 7, statusByte.testBit 6, statusByte.testBit 5, statusByte.testBit 4,
          statusByte % 16⟩) ∧
    decodeStatus 0b10000011 = ⟨true, false, false, false, 3⟩ := by
  constructor
  · decide
  · decide

/-- C9: a track ID present in both the current and the previous
TouchState is classified Updated unconditionally: even when its stored
contact is identical in both states, the Updated transition for it is
among the transitions of the diff pass. -/
theorem c9_common_track_updated_unconditionally (cur prev : TouchState) (t : Nat)
    (hc : t ∈ dictKeys cur) (hp : t ∈ dictKeys prev)
    (_hsame : dictGet cur t = dictGet prev t) :
    TrackTransition.updated t (dictGet cur t) ∈ transitions cur prev := by
  have hcommon : t ∈ commonTracks cur prev := by
    simp only [commonTracks, List.mem_filter, decide_eq_true_eq]
    exact ⟨hc, hp⟩
  have hmem : TrackTransition.updated t (dictGet cur t) ∈ updatedTransitions cur prev := by
    simp only [updatedTransitions, List.mem_map]
    exact ⟨t, hcommon, rfl⟩
  simp only [transitions, List.mem_append]
  exact Or.inl (Or.inr hmem)

/-- C9 witness: the single track 5 with the same contact in both states
is still classified Updated. -/
theorem c9_witness :
    TrackTransition.updated 5 (dictGet [(5, ⟨10, 10, 3, 5⟩)] 5) ∈
      transitions [(5, ⟨10, 10, 3, 5⟩)] [(5, ⟨10, 10, 3, 5⟩)] :=
  c9_common_track_updated_unconditionally [(5, ⟨10, 10, 3, 5⟩)] [(5, ⟨10, 10, 3, 5⟩)] 5
    (by decide) (by decide) (by decide)

/-- C10: the slot-select event of every transition (new, updated and
ended alike) carries the hardware track ID itself as its value, the
capability table declares the slot axis maximum as 9, and hence a track
ID greater than 9 selects a slot beyond the declared range. -/
theorem c10_slot_select_is_raw_track_id (coordinateResolution : Nat × Nat)
    (tr : TrackTransition) :
    (transitionEvents tr).head? =
      some (Event.absWrite AbsCode.mtSlot ((transitionTrackID tr : Nat) : Int)) ∧
    slotAbsMax coordinateResolution = 9 ∧
    (9 < transitionTrackID tr →
      slotAbsMax coordinateResolution < ((transitionTrackID tr : Nat) : Int)) := by
  refine ⟨?_, rfl, ?_⟩
  · cases tr <;> rfl
  · intro h
    have : slotAbsMax coordinateResolution = 9 := rfl
    rw [this]
    exact_mod_cast h

/-- C10 witness: track ID 10 emits slot-select 10, exceeding the
declared slot maximum 9. -/
theorem c10_witness :
    9 < transitionTrackID (TrackTransition.ended 10) ∧
    slotAbsMax (0, 0) < ((transitionTrackID (TrackTransition.ended 10) : Nat) : Int) :=
  ⟨by decide, (c10_slot_select_is_raw_track_id (0, 0) (TrackTransition.ended 10)).2.2 (by decide)⟩

/-- C7 witness: the byte pair 0x34, 0x12 combines to the spec's
little-endian value. -/
theorem c7_witness : combine [0x34, 0x12] = specLittleEndian [0x34, 0x12] :=
  c7_multi_byte_read_little_endian.2.1 [0x34, 0x12] (by decide)

/-- C8 witness: the decoder equation instantiated at status byte 0x83. -/
theorem c8_witness :
    decodeStatus 0x83 = ⟨Nat.testBit 0x83 7, Nat.testBit 0x83 6, Nat.testBit 0x83 5,
      Nat.testBit 0x83 4, 0x83 % 16⟩ :=
  c8_status_byte_decoding.1 0x83 (by decide)

/-- Oracle for the C2 scenario: native X resolution 100, native Y
resolution 200, slot-0 contact at raw (10, 20) with size 1 and track 3;
all reads are two-byte little-endian with a zero high byte. -/
def c2Oracle : Oracle :=
  ⟨fun reg =>
    if reg = [0x81, 0x46] then .ok 100
    else if reg = [0x81, 0x47] then .ok 0
    else if reg = [0x81, 0x48] then .ok 200
    else if reg = [0x81, 0x49] then .ok 0
    else if reg = [0x81, 0x50] then .ok 10
    else if reg = [0x81, 0x51] then .ok 0
    else if reg = [0x81, 0x52] then .ok 20
    else if reg = [0x81, 0x53] then .ok 0
    else if reg = [0x81, 0x54] then .ok 1
    else if reg = [0x81, 0x55] then .ok 0
    else if reg = [0x81, 0x4F] then .ok 3
    else .ok 0,
   fun _ _ => .ok ()⟩

/-- Configuration for the C2 scenario: scaling 1, flipX and swapXY
enabled. -/
def c2Config : Config := ⟨1, true, false, true⟩

/-- C2 counterexample: with flipX and swapXY both enabled, native X
resolution 100 and native Y resolution 200, the driver stores the
swapped resolution (200, 100) and flips the raw x value 10 against its
first component, producing coordinate 190 = 200 - 10; the claim's
transform, which reflects raw x about the native X resolution 100,
predicts 90 = 100 - 10 instead, so the code differs from the claim at
this input. -/
theorem c2_counterexample :
    queryCoordinateResolution c2Oracle c2Config = .ok (200, 100) ∧
    queryPoint c2Oracle c2Config (200, 100) 0 = .ok (20, 190, 1, 3) ∧
    specTransform c2Config (100, 200) 10 20 = (20, 90) ∧
    transform c2Config (200, 100) 10 20 = (20, 190) ∧
    transform c2Config (200, 100) 10 20 ≠ specTransform c2Config (100, 200) 10 20 := by
  refine ⟨rfl, rfl, rfl, rfl, by decide⟩

/-- C2 amended: the flips are applied to the raw coordinate variables
before the swap, but the reflection constants are the components of the
stored, already-swapped resolution.  With swapXY disabled the transform
agrees with the claim (each flip reflects about the native resolution of
its own axis); with swapXY enabled, raw x is reflected about the scaled
native Y resolution and raw y about the scaled native X resolution. -/
theorem c2_amended (cfg : Config) (nx ny xRead yRead : Nat) :
    (cfg.swapXY = false →
      transform cfg (nx * cfg.scalingFactor, ny * cfg.scalingFactor) xRead yRead =
        specTransform cfg (nx, ny) xRead yRead) ∧
    (cfg.swapXY = true →
      transform cfg (ny * cfg.scalingFactor, nx * cfg.scalingFactor) xRead yRead =
        ((if cfg.flipY then ((nx * cfg.scalingFactor : Nat) : Int) -
            (yRead : Int) * (cfg.scalingFactor : Int)
          else (yRead : Int) * (cfg.scalingFactor : Int)),
         (if cfg.flipX then ((ny * cfg.scalingFactor : Nat) : Int) -
            (xRead : Int) * (cfg.scalingFactor : Int)
          else (xRead : Int) * (cfg.scalingFactor : Int)))) := by
  constructor
  · intro hs
    simp only [transform, specTransform, hs, if_false, Bool.false_eq_true]
  · intro hs
    simp only [transform, hs, if_true]

/-- C2 amended witness: both conjuncts instantiated; without swap the
transform matches the spec transform on (10, 20), with swap it reflects
raw x about the native Y resolution 200. -/
theorem c2_amended_witness :
    transform ⟨1, true, false, false⟩ (100 * 1, 200 * 1) 10 20 =
      specTransform ⟨1, true, false, false⟩ (100, 200) 10 20 ∧
    transform ⟨1, true, false, true⟩ (200 * 1, 100 * 1) 10 20 =
      ((if false then ((100 * 1 : Nat) : Int) - (20 : Int) * (1 : Int) else (20 : Int) * (1 : Int)),
       (if true then ((200 * 1 : Nat) : Int) - (10 : Int) * (1 : Int) else (10 : Int) * (1 : Int))) :=
  ⟨(c2_amended ⟨1, true, false, false⟩ 100 200 10 20).1 rfl,
   (c2_amended ⟨1, true, false, true⟩ 100 200 10 20).2 rfl⟩

/-- Oracle whose status read reports one ready contact but whose contact
reads all fail with a transport error: a bus failure mid-cycle. -/
def c4BadOracle : Oracle :=
  ⟨fun reg => if reg = [0x81, 0x4E] then .ok 0x81 else .error .transport,
   fun _ _ => .ok ()⟩

/-- Oracle for a fully successful one-contact cycle: status 0x81 (buffer
ready, one contact), every other register answers with its own low
address byte, so the slot-0 track ID is 0x4F = 79. -/
def c4GoodOracle : Oracle :=
  ⟨fun reg => if reg = [0x81, 0x4E] then .ok 0x81 else .ok (reg.getD 1 0),
   fun _ _ => .ok ()⟩

/-- Identity configuration: scaling 1, no flips, no swap. -/
def plainConfig : Config := ⟨1, false, false, false⟩

/-- C4 counterexample: scheduling a mid-cycle-failing oracle and then a
good oracle, the source loop propagates the transport error and never
runs the second cycle (no state, no buffer clear in the write trace);
under the claim's semantics, in which the failed cycle is abandoned and
a fresh cycle begins after the poll delay, the second cycle completes,
clears the buffer and tracks contact 79. -/
theorem c4_counterexample :
    runLoop plainConfig (0, 0) [c4BadOracle, c4GoodOracle] initialState =
      (.error .transport, []) ∧
    specRunLoopContinue plainConfig (0, 0) [c4BadOracle, c4GoodOracle] initialState =
      (.ok ⟨[(79, ⟨20816, 21330, 21844, 79⟩)], [(79, ⟨20816, 21330, 21844, 79⟩)]⟩,
        [clearWrite]) ∧
    (runLoop plainConfig (0, 0) [c4BadOracle, c4GoodOracle] initialState).1 ≠
      (specRunLoopContinue plainConfig (0, 0) [c4BadOracle, c4GoodOracle] initialState).1 := by
  have h1 : runLoop plainConfig (0, 0) [c4BadOracle, c4GoodOracle] initialState =
      (.error .transport, []) := rfl
  have h2 : specRunLoopContinue plainConfig (0, 0) [c4BadOracle, c4GoodOracle] initialState =
      (.ok ⟨[(79, ⟨20816, 21330, 21844, 79⟩)], [(79, ⟨20816, 21330, 21844, 79⟩)]⟩,
        [clearWrite]) := rfl
  refine ⟨h1, h2, ?_⟩
  rw [h1, h2]
  simp

/-- C4 amended: a bus failure mid-cycle is not retried and the cycle's
processing is abandoned, but no fresh cycle begins: the error propagates
out of the loop, which terminates with the failed cycle's write trace
and without running any of the remaining cycles. -/
theorem c4_amended (cfg : Config) (coordinateResolution : Nat × Nat) (o : Oracle)
    (rest : List Oracle) (st : DriverState) (e : DriverError) (w : List WriteOp)
    (h : readCycle o cfg coordinateResolution st = (.error e, w)) :
    runLoop cfg coordinateResolution (o :: rest) st = (.error e, w) := by
  unfold runLoop
  rw [h]

/-- C4 amended witness: the failing first cycle makes the two-cycle loop
stop with the transport error immediately. -/
theorem c4_amended_witness :
    runLoop plainConfig (0, 0) [c4BadOracle, c4GoodOracle] initialState =
      (.error .transport, []) :=
  c4_amended plainConfig (0, 0) c4BadOracle [c4GoodOracle] initialState .transport [] rfl

/-- Well-formedness of the loop-owned state: both dicts have unique keys
and at most 5 entries. -/
def stateWF (st : DriverState) : Prop :=
  (dictKeys st.touchInfo).Nodup ∧ st.touchInfo.length ≤ 5 ∧
    (dictKeys st.previousTouchInfo).Nodup ∧ st.previousTouchInfo.length ≤ 5

theorem queryLoop_ok (o : Oracle) (cfg : Config) (res : Nat × Nat) :
    ∀ (idxs : List Nat) (m : TouchState) (acc : List Nat) (sts : List TouchState)
      (m' : TouchState) (tracksRead : List Nat) (sts' : List TouchState),
      queryLoop o cfg res idxs m acc sts = .ok (m', tracksRead, sts') →
      ((dictKeys m).Nodup → (dictKeys m').Nodup) ∧
      tracksRead.length = acc.length + idxs.length ∧
      (∀ i ∈ idxs, i ≤ 4) := by
  intro idxs
  induction idxs with
  | nil =>
    intro m acc sts m' tracksRead sts' h
    unfold queryLoop at h
    simp only [Except.ok.injEq, Prod.mk.injEq] at h
    obtain ⟨rfl, rfl, rfl⟩ := h
    exact ⟨id, by simp, by simp⟩
  | cons i rest ih =>
    intro m acc sts m' tracksRead sts' h
    unfold queryLoop at h
    cases hq : queryPoint o cfg res i with
    | error e => rw [hq] at h; exact absurd h (by simp)
    | ok v =>
      rw [hq] at h
      obtain ⟨x, y, size, track⟩ := v
      simp only [] at h
      have hi : i ≤ 4 := by
        by_contra hgt
        unfold queryPoint at hq
        rw [dif_neg hgt] at hq
        exact absurd hq (by simp)
      obtain ⟨h1, h2, h3⟩ := ih _ _ _ _ _ _ h
      refine ⟨?_, ?_, ?_⟩
      · intro hm
        exact h1 (nodup_dictKeys_insertKV hm track ⟨x, y, size, track⟩)
      · rw [h2]
        simp [List.length_append]
        omega
      · intro j hj
        rcases List.mem_cons.mp hj with rfl | hj'
        · exact hi
        · exact h3 j hj'

set_option maxHeartbeats 1000000 in
/-- C3 amended: the two TouchState instances hold at most 5 entries (and
have unique keys) in the initial state and at the end of every completed
cycle; a cycle whose status byte reports more than 5 contacts fails the
slot assertion rather than inserting more than 5 contacts.  The claim's
stronger reading, that the bound holds at every point of execution, is
refuted by the counterexample: during the contact-query loop the current
dict transiently holds old and new tracks together, up to 10 entries. -/
theorem c3_amended :
    stateWF initialState ∧
    ∀ (o : Oracle) (cfg : Config) (coordinateResolution : Nat × Nat) (st st' : DriverState)
      (acts : List Action) (w : List WriteOp),
      stateWF st →
      readCycle o cfg coordinateResolution st = (.ok (st', acts), w) → stateWF st' := by
  constructor
  · exact ⟨List.nodup_nil, by simp [initialState], List.nodup_nil, by simp [initialState]⟩
  · intro o cfg res st st' acts w hwf h
    unfold readCycle at h
    cases hr : o.read [0x81, 0x4E] with
    | error e => rw [hr] at h; exact absurd h (by simp)
    | ok statusByte =>
      rw [hr] at h
      simp only [] at h
      by_cases hb : (decodeStatus statusByte).bufferStatus = true
      · rw [if_pos hb] at h
        by_cases hc : 1 ≤ (decodeStatus statusByte).touchPoints
        · rw [if_pos hc] at h
          cases hq : queryLoop o cfg res (List.range (decodeStatus statusByte).touchPoints)
              st.touchInfo [] [] with
          | error e => rw [hq] at h; exact absurd h (by simp)
          | ok r =>
            rw [hq] at h
            obtain ⟨m1, tracksThisRound, sts⟩ := r
            simp only [] at h
            cases hw : o.write [0x81, 0x4E] [0] with
            | error e => rw [hw] at h; exact absurd h (by simp)
            | ok u =>
              rw [hw] at h
              simp only [Prod.mk.injEq, Except.ok.injEq] at h
              obtain ⟨⟨hst, -⟩, -⟩ := h
              obtain ⟨hq1, hq2, hq3⟩ := queryLoop_ok o cfg res _ _ _ _ _ _ _ hq
              have hnd1 : (dictKeys m1).Nodup := hq1 hwf.1
              have htp : (decodeStatus statusByte).touchPoints ≤ 5 := by
                by_contra hgt
                have h5 : 5 ∈ List.range (decodeStatus statusByte).touchPoints :=
                  List.mem_range.mpr (by omega)
                exact absurd (hq3 5 h5) (by omega)
              have htr : tracksThisRound.length ≤ 5 := by
                rw [hq2]
                simpa using htp
              have hnd2 : (dictKeys (removeMissing m1 tracksThisRound)).Nodup := by
                rw [dictKeys_removeMissing]
                exact hnd1.filter _
              have hlen : (removeMissing m1 tracksThisRound).length ≤ 5 :=
                le_trans (removeMissing_length_le hnd1 tracksThisRound) htr
              rw [← hst]
              exact ⟨hnd2, hlen, hnd2, hlen⟩
        · rw [if_neg hc] at h
          cases hw : o.write [0x81, 0x4E] [0] with
          | error e => rw [hw] at h; exact absurd h (by simp)
          | ok u =>
            rw [hw] at h
            simp only [Prod.mk.injEq, Except.ok.injEq] at h
            obtain ⟨⟨hst, -⟩, -⟩ := h
            rw [← hst]
            exact ⟨List.nodup_nil, by simp, List.nodup_nil, by simp⟩
      · rw [if_neg hb] at h
        simp only [Prod.mk.injEq, Except.ok.injEq] at h
        obtain ⟨⟨hst, -⟩, -⟩ := h
        rw [← hst]
        exact hwf

/-- Oracle for the first C3 cycle: status 0x85 (buffer ready, five
contacts); every other register answers with its own low address byte,
so the five track IDs are 79, 87, 95, 103, 111. -/
def c3OracleA : Oracle :=
  ⟨fun reg => if reg = [0x81, 0x4E] then .ok 0x85 else .ok (reg.getD 1 0),
   fun _ _ => .ok ()⟩

/-- Oracle for the second C3 cycle: same status, but every data register
answers with 128 plus its low address byte, so the five track IDs are
207, 215, 223, 231, 239 — all different from the first cycle's. -/
def c3OracleB : Oracle :=
  ⟨fun reg => if reg = [0x81, 0x4E] then .ok 0x85 else .ok (128 + reg.getD 1 0),
   fun _ _ => .ok ()⟩

/-- The driver state after the first C3 cycle from the initial state. -/
def c3StateAfterFirstCycle : DriverState :=
  cycleResultState (readCycle c3OracleA plainConfig (0, 0) initialState)

/-- The sizes of the current dict after each insertion of the second C3
cycle's contact-query loop, starting from the first cycle's state. -/
def c3SecondCycleMidSizes : List Nat :=
  match queryLoop c3OracleB plainConfig (0, 0) (List.range 5)
      c3StateAfterFirstCycle.touchInfo [] [] with
  | .ok (_, _, states) => states.map List.length
  | .error _ => []

/-- C3 counterexample: after a completed five-contact cycle the current
dict holds 5 entries, but during the next cycle's contact-query loop
(five fresh track IDs) the dict grows through sizes 6, 7, 8, 9, 10
before the stale tracks are removed — so the mapping does exceed 5
entries at interior points of the driver's execution, even though the
completed second cycle again ends with 5 entries. -/
theorem c3_counterexample :
    c3StateAfterFirstCycle.touchInfo.length = 5 ∧
    c3SecondCycleMidSizes = [6, 7, 8, 9, 10] ∧
    (cycleResultState (readCycle c3OracleB plainConfig (0, 0)
      c3StateAfterFirstCycle)).touchInfo.length = 5 := by
  refine ⟨rfl, rfl, rfl⟩

/-- C3 amended witness: the invariant is applied to the concrete first
C3 cycle, whose resulting state it certifies. -/
theorem c3_amended_witness : stateWF c3StateAfterFirstCycle := by
  refine c3_amended.2 c3OracleA plainConfig (0, 0) initialState c3StateAfterFirstCycle
    ?_ ?_ c3_amended.1 ?_
  · exact (eventCallbackActions c3StateAfterFirstCycle.touchInfo [])
  · exact [clearWrite]
  · rfl

/-- C5: in every completed loop iteration, the zero write to the status
register is issued if and only if bit 7 of the status byte read at the
start of the iteration was set; the iteration's write trace is exactly
the clear write when the bit was set (whatever the contact count,
including zero) and empty when it was not. -/
theorem c5_clear_iff_buffer_ready (o : Oracle) (cfg : Config)
    (coordinateResolution : Nat × Nat) (st st' : DriverState) (b : Nat) (acts : List Action)
    (w : List WriteOp) (hread : o.read [0x81, 0x4E] = .ok b)
    (h : readCycle o cfg coordinateResolution st = (.ok (st', acts), w)) :
    (clearWrite ∈ w ↔ b.testBit 7 = true) ∧
    w = if b.testBit 7 then [clearWrite] else [] := by
  suffices hw : w = if b.testBit 7 then [clearWrite] else [] by
    refine ⟨?_, hw⟩
    rw [hw]
    cases hbit : b.testBit 7 <;> simp [hbit]
  unfold readCycle at h
  rw [hread] at h
  simp only [] at h
  rw [show (b.testBit 7) = (decodeStatus b).bufferStatus from (bufferStatus_eq_testBit b).symm]
  by_cases hb : (decodeStatus b).bufferStatus = true
  · rw [if_pos hb] at h
    rw [if_pos hb]
    by_cases hc : 1 ≤ (decodeStatus b).touchPoints
    · rw [if_pos hc] at h
      cases hq : queryLoop o cfg coordinateResolution (List.range (decodeStatus b).touchPoints)
          st.touchInfo [] [] with
      | error e => rw [hq] at h; exact absurd h (by simp)
      | ok r =>
        rw [hq] at h
        obtain ⟨m1, tracksThisRound, sts⟩ := r
        simp only [] at h
        cases hwr : o.write [0x81, 0x4E] [0] with
        | error e => rw [hwr] at h; exact absurd h (by simp)
        | ok u =>
          rw [hwr] at h
          simp only [Prod.mk.injEq, Except.ok.injEq] at h
          exact h.2.symm
    · rw [if_neg hc] at h
      cases hwr : o.write [0x81, 0x4E] [0] with
      | error e => rw [hwr] at h; exact absurd h (by simp)
      | ok u =>
        rw [hwr] at h
        simp only [Prod.mk.injEq, Except.ok.injEq] at h
        exact h.2.symm
  · rw [if_neg hb] at h
    rw [if_neg hb]
    simp only [Prod.mk.injEq, Except.ok.injEq] at h
    exact h.2.symm

/-- Oracle answering every read with status byte 0x80: buffer ready,
zero contacts; used to exercise the all-released branch. -/
def zeroContactOracle : Oracle := ⟨fun _ => .ok 0x80, fun _ _ => .ok ()⟩

/-- Oracle answering every read with 0: buffer not ready. -/
def idleOracle : Oracle := ⟨fun _ => .ok 0x00, fun _ _ => .ok ()⟩

/-- C5 witness: with buffer ready and zero contacts the cycle's write
trace is exactly the clear write, and its membership matches bit 7 of
the status byte 0x80. -/
theorem c5_witness :
    (clearWrite ∈ [clearWrite] ↔ Nat.testBit 0x80 7 = true) ∧
    [clearWrite] = if Nat.testBit 0x80 7 then [clearWrite] else [] :=
  c5_clear_iff_buffer_ready zeroContactOracle plainConfig (0, 0) initialState ⟨[], []⟩ 0x80
    [Action.setPrevious []] [clearWrite] rfl rfl

/-- C6: at the end of every completed cycle that performs a diff (one
whose action list is non-empty; an idle cycle performs none), the
previous TouchState equals the current one — it is replaced wholesale —
and the replacement is the last action, strictly after every emitted
transition event. -/
theorem c6_previous_replaced_wholesale_after_events (o : Oracle) (cfg : Config)
    (coordinateResolution : Nat × Nat) (st st' : DriverState) (acts : List Action)
    (w : List WriteOp)
    (h : readCycle o cfg coordinateResolution st = (.ok (st', acts), w))
    (hne : acts ≠ []) :
    st'.previousTouchInfo = st'.touchInfo ∧
    acts.getLast? = some (Action.setPrevious st'.touchInfo) ∧
    acts.dropLast.all isEmitAction = true := by
  unfold readCycle at h
  cases hr : o.read [0x81, 0x4E] with
  | error e => rw [hr] at h; exact absurd h (by simp)
  | ok statusByte =>
    rw [hr] at h
    simp only [] at h
    by_cases hb : (decodeStatus statusByte).bufferStatus = true
    · rw [if_pos hb] at h
      by_cases hc : 1 ≤ (decodeStatus statusByte).touchPoints
      · rw [if_pos hc] at h
        cases hq : queryLoop o cfg coordinateResolution
            (List.range (decodeStatus statusByte).touchPoints) st.touchInfo [] [] with
        | error e => rw [hq] at h; exact absurd h (by simp)
        | ok r =>
          rw [hq] at h
          obtain ⟨m1, tracksThisRound, sts⟩ := r
          simp only [] at h
          cases hwr : o.write [0x81, 0x4E] [0] with
          | error e => rw [hwr] at h; exact absurd h (by simp)
          | ok u =>
            rw [hwr] at h
            simp only [Prod.mk.injEq, Except.ok.injEq] at h
            obtain ⟨⟨hst, hacts⟩, -⟩ := h
            rw [← hst, ← hacts]
            refine ⟨rfl, List.getLast?_concat _, ?_⟩
            rw [show (eventCallbackActions (removeMissing m1 tracksThisRound)
                st.previousTouchInfo).dropLast =
              (eventTrace (removeMissing m1 tracksThisRound) st.previousTouchInfo).map
                Action.emit from List.dropLast_concat]
            simp [List.all_map, isEmitAction, Function.comp]
      · rw [if_neg hc] at h
        cases hwr : o.write [0x81, 0x4E] [0] with
        | error e => rw [hwr] at h; exact absurd h (by simp)
        | ok u =>
          rw [hwr] at h
          simp only [Prod.mk.injEq, Except.ok.injEq] at h
          obtain ⟨⟨hst, hacts⟩, -⟩ := h
          rw [← hst, ← hacts]
          refine ⟨rfl, List.getLast?_concat _, ?_⟩
          rw [show (eventCallbackActions [] st.previousTouchInfo).dropLast =
            (eventTrace [] st.previousTouchInfo).map Action.emit from List.dropLast_concat]
          simp [List.all_map, isEmitAction, Function.comp]
    · rw [if_neg hb] at h
      simp only [Prod.mk.injEq, Except.ok.injEq] at h
      exact absurd h.1.2.symm hne

/-- C6 witness: a buffer-ready, zero-contact cycle from the empty state
performs a diff whose single action is the final wholesale replacement. -/
theorem c6_witness :
    (DriverState.mk [] []).previousTouchInfo = (DriverState.mk [] []).touchInfo ∧
    ([Action.setPrevious []] : List Action).getLast? =
      some (Action.setPrevious (DriverState.mk [] []).touchInfo) ∧
    ([Action.setPrevious []] : List Action).dropLast.all isEmitAction = true :=
  c6_previous_replaced_wholesale_after_events zeroContactOracle plainConfig (0, 0)
    initialState ⟨[], []⟩ [Action.setPrevious []] [clearWrite] rfl (by simp)

end GT911
